import Mathlib

/-!
Shallow embedding of the repository's two modules, `proj_transaction.py` and
`proj_block.py`, together with proofs settling the frozen claims about them.

Conventions of the embedding:
* Python attributes that an object may lack (`author`, `vk`, `signature` on a
  `Transaction`: `__init__` never creates them, only `sign` does) are modelled
  as `Option` fields, `none` meaning "attribute absent"; reading an absent
  attribute yields `PyErr.attributeError`, exactly as Python raises
  `AttributeError`.
* Fallible Python code is modelled in `Except PyErr`; `try/except Exception`
  blocks catch every `PyErr`.
* `json.dumps(d, sort_keys=True)` is modelled by `dumpsDict`: sort the field
  list by key (code-point order, as Python compares `str`) and render with the
  default separators `", "` and `": "`, escaping strings the way Python's
  `ensure_ascii` encoder does.  Values that Python's encoder cannot serialize
  (Transaction objects, bound methods) raise `TypeError`.
* The ambient clock used by `proj_utils.get_time()` is passed in as an explicit
  `now : String` argument.
* The signature scheme and SHA-256 (the `ecdsa` and `hashlib` libraries) are
  external to the repository and are modelled by a `Crypto` parameter record.
-/

/-- Python exceptions that the modelled code can raise. `attributeError` carries
the missing attribute's name; `badSignatureError` models `ecdsa.BadSignatureError`;
`incompleteTransaction` models the exception class defined in
`proj_transaction.py`. -/
inductive PyErr where
  | attributeError (name : String)
  | typeError (msg : String)
  | valueError (msg : String)
  | incompleteTransaction (msg : String)
  | badSignatureError
deriving DecidableEq

/-! ### Hexadecimal helpers: `bytes.hex()` and `bytes.fromhex` -/

/-- Lowercase hexadecimal digit character, as produced by `bytes.hex()` and by
Python's `%04x` formatting inside the JSON encoder. -/
def hexDigitChar (n : Nat) : Char :=
  if n < 10 then Char.ofNat (48 + n) else Char.ofNat (87 + n)

/-- Four lowercase hex digits of `n % 65536`, most significant first. -/
def hex4 (n : Nat) : List Char :=
  [hexDigitChar (n / 4096 % 16), hexDigitChar (n / 256 % 16),
   hexDigitChar (n / 16 % 16), hexDigitChar (n % 16)]

/-- Bytes (each `< 256`) to lowercase hex pairs: Python's `bytes.hex()`. -/
def hexEncodeL : List Nat → List Char
  | [] => []
  | b :: r => hexDigitChar (b / 16 % 16) :: hexDigitChar (b % 16) :: hexEncodeL r

/-- String form of `bytes.hex()`. -/
def hexEncode (bs : List Nat) : String := String.mk (hexEncodeL bs)

/-- Value of one hex digit character, upper or lower case (as accepted by
`bytes.fromhex`). -/
def readHexDigit (c : Char) : Option Nat :=
  let n := c.toNat
  if 48 ≤ n ∧ n ≤ 57 then some (n - 48)
  else if 97 ≤ n ∧ n ≤ 102 then some (n - 87)
  else if 65 ≤ n ∧ n ≤ 70 then some (n - 55)
  else none

/-- Model of `bytes.fromhex`: pairs of hex digits, `none` on a stray digit or a
non-hex character (Python raises `ValueError` there). -/
def hexDecodeL : List Char → Option (List Nat)
  | [] => some []
  | [_] => none
  | a :: b :: r =>
    match readHexDigit a, readHexDigit b, hexDecodeL r with
    | some da, some db, some rest => some ((da * 16 + db) :: rest)
    | _, _, _ => none

/-- String form of `bytes.fromhex`. -/
def hexDecode (s : String) : Option (List Nat) := hexDecodeL s.data

/-! ### The JSON string escaper (Python `json`, `ensure_ascii=True`) -/

/-- Escape of a single character, following `json.encoder`'s ASCII encoder:
the seven short escapes, `\uXXXX` for other control characters and for all
characters above `~`, and UTF-16 surrogate pairs above `0xFFFF`. -/
def escapeChar (c : Char) : List Char :=
  let n := c.toNat
  if n = 34 then [Char.ofNat 92, Char.ofNat 34]
  else if n = 92 then [Char.ofNat 92, Char.ofNat 92]
  else if n = 8 then [Char.ofNat 92, Char.ofNat 98]
  else if n = 9 then [Char.ofNat 92, Char.ofNat 116]
  else if n = 10 then [Char.ofNat 92, Char.ofNat 110]
  else if n = 12 then [Char.ofNat 92, Char.ofNat 102]
  else if n = 13 then [Char.ofNat 92, Char.ofNat 114]
  else if n < 32 then Char.ofNat 92 :: Char.ofNat 117 :: hex4 n
  else if n ≤ 126 then [c]
  else if n < 65536 then Char.ofNat 92 :: Char.ofNat 117 :: hex4 n
  else
    Char.ofNat 92 :: Char.ofNat 117 :: hex4 (55296 + (n - 65536) / 1024) ++
      Char.ofNat 92 :: Char.ofNat 117 :: hex4 (56320 + (n - 65536) % 1024)

/-- Escape of a whole character list. -/
def escapeL : List Char → List Char
  | [] => []
  | c :: cs => escapeChar c ++ escapeL cs

/-- JSON rendering of a string: a double quote, the escaped content, a double
quote. -/
def jstrL (s : List Char) : List Char :=
  Char.ofNat 34 :: (escapeL s ++ [Char.ofNat 34])

/-- Decimal digit character of `d` (`d < 10`). -/
def digitChar (d : Nat) : Char := Char.ofNat (48 + d)

/-- Decimal rendering of a natural number, as Python renders a non-negative
`int` in JSON. -/
def natReprL (n : Nat) : List Char :=
  if n = 0 then [digitChar 0] else ((Nat.digits 10 n).map digitChar).reverse

/-! ### Sorting a field list by key (`sort_keys=True`) -/

/-- Boolean lexicographic order on code-point lists: exactly how Python
compares two `str` values when sorting dictionary keys. -/
def lexLeN : List Nat → List Nat → Bool
  | [], _ => true
  | _ :: _, [] => false
  | a :: as, b :: bs => if a < b then true else if a = b then lexLeN as bs else false

/-- Code points of a string, the sort key Python compares. -/
def strKey (s : String) : List Nat := s.data.map Char.toNat

theorem lexLeN_total : ∀ a b, lexLeN a b = true ∨ lexLeN b a = true := by
  intro a
  induction a with
  | nil => intro b; left; rfl
  | cons x xs ih =>
    intro b
    cases b with
    | nil => right; rfl
    | cons y ys =>
      by_cases hxy : x < y
      · left; simp [lexLeN, hxy]
      · by_cases hyx : y < x
        · right; simp [lexLeN, hyx]
        · have hxe : x = y := Nat.le_antisymm (Nat.not_lt.mp hyx) (Nat.not_lt.mp hxy)
          subst hxe
          rcases ih ys with h | h
          · left; simp [lexLeN, h]
          · right; simp [lexLeN, h]

theorem lexLeN_antisymm : ∀ a b, lexLeN a b = true → lexLeN b a = true → a = b := by
  intro a
  induction a with
  | nil =>
    intro b _ hba
    cases b with
    | nil => rfl
    | cons y ys => simp [lexLeN] at hba
  | cons x xs ih =>
    intro b hab hba
    cases b with
    | nil => simp [lexLeN] at hab
    | cons y ys =>
      simp only [lexLeN] at hab hba
      by_cases hxy : x < y
      · simp [hxy, Nat.lt_asymm hxy, Nat.ne_of_lt' hxy] at hba
      · by_cases hyx : y < x
        · simp [hxy, hyx, Nat.ne_of_lt' hyx] at hab
        · have hxe : x = y := Nat.le_antisymm (Nat.not_lt.mp hyx) (Nat.not_lt.mp hxy)
          subst hxe
          simp only [hxy, if_neg, if_pos rfl, lt_irrefl] at hab hba
          simp [ih ys hab hba]

theorem lexLeN_trans : ∀ a b c, lexLeN a b = true → lexLeN b c = true →
    lexLeN a c = true := by
  intro a
  induction a with
  | nil => intro b c _ _; rfl
  | cons x xs ih =>
    intro b c hab hbc
    cases b with
    | nil => simp [lexLeN] at hab
    | cons y ys =>
      cases c with
      | nil => simp [lexLeN] at hbc
      | cons z zs =>
        simp only [lexLeN] at hab hbc ⊢
        by_cases hxy : x < y <;> by_cases hyz : y < z
        · have : x < z := Nat.lt_trans hxy hyz
          simp [this]
        · simp only [hyz, if_neg] at hbc
          by_cases hyze : y = z
          · subst hyze; simp [hxy]
          · simp [hyze] at hbc
        · simp only [hxy, if_neg] at hab
          by_cases hxye : x = y
          · subst hxye; simp [hyz]
          · simp [hxye] at hab
        · simp only [hxy, hyz, if_neg] at hab hbc
          by_cases hxye : x = y
          · subst hxye
            by_cases hyze : x = z
            · subst hyze
              simp only [lt_irrefl, if_neg, if_pos rfl] at hab hbc ⊢
              exact ih ys zs hab hbc
            · simp [hyze] at hbc
          · simp [hxye] at hab

/-! ### The external crypto collaborators (`ecdsa`, `hashlib`) -/

/-- Abstract model of the external signature scheme and hash used by the code:
`sk.sign`, `sk.verifying_key.to_pem().hex()`, `VerifyingKey.from_pem`,
`vk.verify` (which returns `true` or raises `BadSignatureError`, modelled by a
`Bool`), and `hashlib.sha256(...).hexdigest()`. -/
structure Crypto where
  SK : Type
  VK : Type
  sign : SK → String → List Nat
  toPemHex : SK → String
  fromPem : List Nat → Option VK
  vkVerify : VK → List Nat → String → Bool
  sha256hex : String → String

/-- A concrete instantiation of the crypto collaborators, used to evaluate the
model at concrete inputs. -/
def trivialCrypto : Crypto where
  SK := Unit
  VK := Unit
  sign := fun _ _ => []
  toPemHex := fun _ => ""
  fromPem := fun _ => some ()
  vkVerify := fun _ _ _ => true
  sha256hex := fun s => s

/-! ### The `Transaction` object (`proj_transaction.py`) -/

/-- State of a `Transaction` object. `container_id`, `event`, `timestamp`,
`ship`, `harbor`, `info` are the attributes `__init__` assigns (`ship` and
`harbor` default to Python `None`, modelled by `Option`).  `author`, `vk` and
`signature` are the attributes only `sign` assigns: `none` means the attribute
does not exist on the object. `info` is the caller's dictionary of container
characteristics; the code never reads it, only stores it. -/
structure Tx where
  container_id : String
  event : String
  timestamp : String
  ship : Option String
  harbor : Option String
  info : List (String × String)
  author : Option String
  vk : Option String
  signature : Option String
deriving DecidableEq

/-- Model of `Transaction.__init__(container_id, event, info, harbor, ship,
date)`: `timestamp = date or proj_utils.get_time()` (the ambient clock is the
explicit `now`), and no `author`/`vk`/`signature` attribute is created. -/
def Tx.init (container_id event : String) (info : List (String × String))
    (harbor ship : Option String) (date : Option String) (now : String) : Tx :=
  { container_id := container_id
    event := event
    timestamp := date.getD now
    ship := ship
    harbor := harbor
    info := info
    author := none
    vk := none
    signature := none }

/-! ### JSON values and `json.dumps(-, sort_keys=True)` -/

/-- A Python value sitting in a record field that gets passed to `json.dumps`:
a string, a non-negative integer, a list of `Transaction` objects, or a bound
method object (what `Block.next` stores in `previous_hash`).  Transaction
objects and methods are not JSON serializable: Python raises `TypeError`. -/
inductive JVal where
  | jstr (s : String)
  | jnat (n : Nat)
  | jtxs (txs : List Tx)
  | jmethod
deriving DecidableEq

/-- Message of the `TypeError` raised when `json.dumps` meets a `Transaction`. -/
def serTxMsg : String := "Object of type Transaction is not JSON serializable"

/-- Message of the `TypeError` raised when `json.dumps` meets a bound method. -/
def serMethodMsg : String := "Object of type method is not JSON serializable"

/-- Rendering of a single JSON value (or the `TypeError` Python would raise). -/
def renderVal : JVal → Except PyErr (List Char)
  | JVal.jstr s => Except.ok (jstrL s.data)
  | JVal.jnat n => Except.ok (natReprL n)
  | JVal.jtxs [] => Except.ok [Char.ofNat 91, Char.ofNat 93]
  | JVal.jtxs (_ :: _) => Except.error (PyErr.typeError serTxMsg)
  | JVal.jmethod => Except.error (PyErr.typeError serMethodMsg)

/-- Key order used by `sort_keys=True`: Python's `str` comparison, i.e.
code-point lexicographic order. -/
def keyLe (p q : String × JVal) : Prop := lexLeN (strKey p.1) (strKey q.1) = true

instance : DecidableRel keyLe := fun p q => by
  unfold keyLe; infer_instance

instance : IsTotal (String × JVal) keyLe :=
  ⟨fun p q => lexLeN_total (strKey p.1) (strKey q.1)⟩

instance : IsTrans (String × JVal) keyLe :=
  ⟨fun p q r => lexLeN_trans (strKey p.1) (strKey q.1) (strKey r.1)⟩

/-- Field list sorted by key, as `sort_keys=True` does. -/
def sortPairs (l : List (String × JVal)) : List (String × JVal) :=
  List.insertionSort keyLe l

/-- Rendering of one `"key": value` entry (default `": "` separator). -/
def renderEntry (k : String) (v : JVal) : Except PyErr (List Char) :=
  (renderVal v).map (fun r => jstrL k.data ++ (Char.ofNat 58 :: Char.ofNat 32 :: r))

/-- Joining step of the entry renderer: propagate the first error (in key
order, as Python's streaming encoder raises), otherwise join with the default
`", "` separator. -/
def combineE (e : Except PyErr (List Char)) (rest : List (String × JVal))
    (tail : Except PyErr (List Char)) : Except PyErr (List Char) :=
  match e with
  | Except.error err => Except.error err
  | Except.ok ec =>
    match rest with
    | [] => Except.ok ec
    | _ :: _ =>
      match tail with
      | Except.error e2 => Except.error e2
      | Except.ok tl => Except.ok (ec ++ (Char.ofNat 44 :: Char.ofNat 32 :: tl))

/-- Rendering of the sorted entries joined by the default `", "` separator;
like Python's streaming encoder it raises at the first unserializable value in
key order. -/
def renderEntries : List (String × JVal) → Except PyErr (List Char)
  | [] => Except.ok []
  | (k, v) :: rest => combineE (renderEntry k v) rest (renderEntries rest)

/-- Model of `json.dumps(d, sort_keys=True)` on a field list `d` (given in the
dictionary's insertion order): sort by key and render between braces. -/
def dumpsDictL (l : List (String × JVal)) : Except PyErr (List Char) :=
  (renderEntries (sortPairs l)).map
    (fun r => Char.ofNat 123 :: (r ++ [Char.ofNat 125]))

/-- String-valued form of `dumpsDict`. -/
def dumpsDict (l : List (String × JVal)) : Except PyErr String :=
  (dumpsDictL l).map String.mk

/-! ### Transaction methods -/

/-- Key constant. -/
def kContainerId : String := "container_id"

/-- Key constant. -/
def kEvent : String := "event"

/-- Key constant. -/
def kAuthor : String := "author"

/-- Key constant. -/
def kVk : String := "vk"

/-- Key constant. -/
def kSignature : String := "signature"

/-- Attribute name referenced by `Transaction.hash` that no `Transaction`
object ever has. -/
def kMessage : String := "message"

/-- Model of the `Transaction.data` property: the dictionary literal
`{"container_id": ..., "event": ..., "author": ..., "vk": ...}` in its source
insertion order.  Reading `self.author` or `self.vk` on an object that was
never signed raises `AttributeError` (in that order, as the literal's values
are evaluated left to right). -/
def Tx.dataE (t : Tx) : Except PyErr (List (String × JVal)) :=
  match t.author with
  | none => Except.error (PyErr.attributeError kAuthor)
  | some a =>
    match t.vk with
    | none => Except.error (PyErr.attributeError kVk)
    | some v =>
      Except.ok [(kContainerId, JVal.jstr t.container_id), (kEvent, JVal.jstr t.event),
                 (kAuthor, JVal.jstr a), (kVk, JVal.jstr v)]

/-- Model of `Transaction.json_dumps`: `json.dumps(self.data, sort_keys=True)`. -/
def Tx.json_dumpsE (t : Tx) : Except PyErr String :=
  match t.dataE with
  | Except.error e => Except.error e
  | Except.ok d => dumpsDict d

/-- Model of `Transaction.sign(sk)`: sign the canonical JSON of `self.data`,
then assign `signature`, `vk` and `author = sha256(vk)` in that order.  The
exception from `json_dumps` (always raised on a freshly constructed
transaction) propagates before any attribute is assigned. -/
def Tx.signE (c : Crypto) (sk : c.SK) (t : Tx) : Except PyErr Tx :=
  match t.json_dumpsE with
  | Except.error e => Except.error e
  | Except.ok j =>
    let v := c.toPemHex sk
    Except.ok { t with signature := some (hexEncode (c.sign sk j))
                       vk := some v
                       author := some (c.sha256hex v) }

/-- Body of the `try` block of `Transaction.verify`: decode the stored key and
signature, re-serialize the current data, and check the signature
(`vk.verify` returns `True` or raises `BadSignatureError`). -/
def Tx.verifyTryE (c : Crypto) (t : Tx) : Except PyErr Bool :=
  match t.vk with
  | none => Except.error (PyErr.attributeError kVk)
  | some vkHex =>
    match hexDecode vkHex with
    | none => Except.error (PyErr.valueError ("non-hexadecimal number found in fromhex"))
    | some vkBytes =>
      match c.fromPem vkBytes with
      | none => Except.error (PyErr.valueError ("Could not deserialize key data"))
      | some vkObj =>
        match t.signature with
        | none => Except.error (PyErr.attributeError kSignature)
        | some sigHex =>
          match hexDecode sigHex with
          | none => Except.error (PyErr.valueError ("non-hexadecimal number found in fromhex"))
          | some sigBytes =>
            match t.json_dumpsE with
            | Except.error e => Except.error e
            | Except.ok d =>
              if c.vkVerify vkObj sigBytes d then Except.ok true
              else Except.error PyErr.badSignatureError

/-- Model of `Transaction.verify`: the whole body runs inside
`try ... except Exception: return False`, so every failure becomes `false`. -/
def Tx.verify (c : Crypto) (t : Tx) : Bool :=
  match t.verifyTryE c with
  | Except.ok b => b
  | Except.error _ => false

/-- Model of `Transaction.hash`.  Reading `self.signature` (then `self.vk`) on
an unsigned transaction raises `AttributeError`; when both exist they are
strings, never Python `None`, so the `IncompleteTransaction` branch is dead;
then `data_to_hash` evaluates `self.json_dumps()`, `str(self.signature)`,
`str(self.vk)` and finally `str(self.message)` — and `Transaction.__init__`
never creates a `message` attribute, so this raises `AttributeError`. -/
def Tx.hashE (c : Crypto) (t : Tx) : Except PyErr String :=
  match t.signature with
  | none => Except.error (PyErr.attributeError kSignature)
  | some _ =>
    match t.vk with
    | none => Except.error (PyErr.attributeError kVk)
    | some _ =>
      match t.json_dumpsE with
      | Except.error e => Except.error e
      | Except.ok _ =>
        let _ := c
        Except.error (PyErr.attributeError kMessage)

/-! ### Sequences of Transaction operations (for the signed-state invariant) -/

/-- One method call on a live `Transaction` object. -/
inductive TxOp (σ : Type) where
  | doSign (sk : σ)
  | doVerify
  | doHash

/-- Effect of one method call on the object's attribute state: `verify` and
`hash` assign nothing; `sign` assigns its three attributes only when it
completes (on exception the object is left as it was). -/
def Tx.step (c : Crypto) (t : Tx) : TxOp c.SK → Tx
  | TxOp.doSign sk =>
    match t.signE c sk with
    | Except.ok t2 => t2
    | Except.error _ => t
  | TxOp.doVerify => t
  | TxOp.doHash => t

/-- State of the object after a sequence of method calls. -/
def Tx.run (c : Crypto) (t : Tx) (ops : List (TxOp c.SK)) : Tx :=
  ops.foldl (Tx.step c) t

/-- The transaction is unsigned: none of the three signing attributes exists. -/
def Tx.unsigned (t : Tx) : Prop :=
  t.author = none ∧ t.vk = none ∧ t.signature = none

/-- The transaction is fully signed: all three signing attributes exist and
`author` is the SHA-256 of the stored public key. -/
def Tx.fullySigned (c : Crypto) (t : Tx) : Prop :=
  ∃ a v s, t.author = some a ∧ t.vk = some v ∧ t.signature = some s ∧ a = c.sha256hex v

/-! ### The `Block` object (`proj_block.py`) -/

/-- Value stored in a block's `previous_hash` attribute: the genesis sentinel
or predecessor-hash string, or — what `Block.next` actually stores via
`new_block.previous_hash = self.hash` (note the missing call parentheses) —
the bound method object itself. -/
inductive BVal where
  | hstr (s : String)
  | method
deriving DecidableEq

/-- State of a `Block` object (the attributes the genesis branch of
`__init__` and `next` assign).  The dictionary branch of `__init__`
(construction from a `data` dict, which assigns a `transaction` attribute,
singular) is not modelled: no claim concerns it. -/
structure Block where
  index : Nat
  previous_hash : BVal
  timestamp : String
  transactions : List Tx
  proof : Nat
deriving DecidableEq

/-- Fixed timestamp of the genesis block. -/
def genesisTimestamp : String := "2023-11-24 00:00:00.000000"

/-- Model of `Block()` (the `data is None` branch of `__init__`): fixed
index 0, the 64-character all-zero sentinel, the fixed genesis timestamp, no
transactions, proof 0.  The ambient clock `now` is passed to show it is never
consulted. -/
def Block.init (now : String) : Block :=
  let _ := now
  { index := 0
    previous_hash := BVal.hstr (String.mk (List.replicate 64 (Char.ofNat 48)))
    timestamp := genesisTimestamp
    transactions := []
    proof := 0 }

/-- Model of `Block.next(transactions)`: index + 1, a fresh timestamp from the
clock, the supplied batch, proof 0 — and `previous_hash = self.hash`, the
bound method object, because the source omits the call parentheses. -/
def Block.next (b : Block) (transactions : List Tx) (now : String) : Block :=
  { index := b.index + 1
    previous_hash := BVal.method
    timestamp := now
    transactions := transactions
    proof := 0 }

/-- Key constant. -/
def kIndex : String := "index"

/-- Key constant. -/
def kPreviousHash : String := "previous_hash"

/-- Key constant. -/
def kTimestamp : String := "timestamp"

/-- Key constant. -/
def kTransactions : String := "transactions"

/-- Key constant. -/
def kProof : String := "proof"

/-- JSON value held by `previous_hash`. -/
def BVal.toJVal : BVal → JVal
  | BVal.hstr s => JVal.jstr s
  | BVal.method => JVal.jmethod

/-- Model of the `Block.data` property / the dictionary literal inside
`Block.hash` (both build the same five-key dictionary, in this insertion
order). -/
def Block.dataL (b : Block) : List (String × JVal) :=
  [(kIndex, JVal.jnat b.index), (kPreviousHash, b.previous_hash.toJVal),
   (kTimestamp, JVal.jstr b.timestamp), (kTransactions, JVal.jtxs b.transactions),
   (kProof, JVal.jnat b.proof)]

/-- Model of `Block.json_dumps` / the serialization step of `Block.hash`:
`json.dumps(block_data, sort_keys=True)`. -/
def Block.json_dumpsE (b : Block) : Except PyErr String :=
  dumpsDict b.dataL

/-- Model of `Block.hash` with the source's stray trailing `x` on
`hexdigest()x` removed: as written, that line is a `SyntaxError` and
`proj_block.py` cannot even be imported; this definition is the expression the
line otherwise computes. -/
def Block.hashE (c : Crypto) (b : Block) : Except PyErr String :=
  (b.json_dumpsE).map c.sha256hex

deriving instance DecidableEq for Except

/-! ### Basic facts about the transaction state machine -/

theorem Tx.dataE_unsigned {t : Tx} (h : t.author = none) :
    t.dataE = Except.error (PyErr.attributeError kAuthor) := by
  unfold Tx.dataE
  rw [h]

theorem Tx.json_dumpsE_unsigned {t : Tx} (h : t.author = none) :
    t.json_dumpsE = Except.error (PyErr.attributeError kAuthor) := by
  unfold Tx.json_dumpsE
  rw [Tx.dataE_unsigned h]

theorem Tx.json_dumpsE_ok {t : Tx} {a v : String} (ha : t.author = some a)
    (hv : t.vk = some v) :
    t.json_dumpsE = dumpsDict [(kContainerId, JVal.jstr t.container_id),
      (kEvent, JVal.jstr t.event), (kAuthor, JVal.jstr a), (kVk, JVal.jstr v)] := by
  unfold Tx.json_dumpsE Tx.dataE
  rw [ha, hv]

theorem dumpsDict_jstr4_ok (k1 k2 k3 k4 s1 s2 s3 s4 : String) :
    ∃ j, dumpsDict [(k1, JVal.jstr s1), (k2, JVal.jstr s2),
      (k3, JVal.jstr s3), (k4, JVal.jstr s4)] = Except.ok j := by
  unfold dumpsDict dumpsDictL sortPairs
  rcases h1 : List.insertionSort keyLe [(k1, JVal.jstr s1), (k2, JVal.jstr s2),
      (k3, JVal.jstr s3), (k4, JVal.jstr s4)] with _ | ⟨p, rest⟩
  · exact ⟨_, rfl⟩
  · have hmem : ∀ q ∈ List.insertionSort keyLe [(k1, JVal.jstr s1), (k2, JVal.jstr s2),
        (k3, JVal.jstr s3), (k4, JVal.jstr s4)], ∃ s, q.2 = JVal.jstr s := by
      intro q hq
      have := (List.mem_insertionSort keyLe).mp hq
      simp only [List.mem_cons, List.mem_singleton] at this
      rcases this with h | h | h | h | h <;> first
        | (subst h; exact ⟨_, rfl⟩)
        | exact absurd h (List.not_mem_nil q)
    rw [h1] at hmem
    clear h1
    suffices hs : ∀ l : List (String × JVal), (∀ q ∈ l, ∃ s, q.2 = JVal.jstr s) →
        ∃ r, renderEntries l = Except.ok r by
      obtain ⟨r, hr⟩ := hs (p :: rest) hmem
      exact ⟨_, by rw [hr]; rfl⟩
    intro l
    induction l with
    | nil => exact fun _ => ⟨[], rfl⟩
    | cons q qs ih =>
      intro hall
      obtain ⟨s, hsq⟩ := hall q (by simp)
      obtain ⟨k, v⟩ := q
      simp only at hsq
      subst hsq
      obtain ⟨r2, hr2⟩ := ih (fun q hq => hall q (by simp [hq]))
      cases qs with
      | nil => exact ⟨_, rfl⟩
      | cons q2 qs2 =>
        refine ⟨(jstrL k.data ++ (Char.ofNat 58 :: Char.ofNat 32 :: jstrL s.data)) ++
          (Char.ofNat 44 :: Char.ofNat 32 :: r2), ?_⟩
        rw [show renderEntries ((k, JVal.jstr s) :: q2 :: qs2) =
          combineE (renderEntry k (JVal.jstr s)) (q2 :: qs2)
            (renderEntries (q2 :: qs2)) from rfl]
        rw [show renderEntry k (JVal.jstr s) = Except.ok (jstrL k.data ++
          (Char.ofNat 58 :: Char.ofNat 32 :: jstrL s.data)) from rfl, hr2]
        rfl

theorem Tx.signE_unsigned {c : Crypto} {sk : c.SK} {t : Tx} (h : t.author = none) :
    t.signE c sk = Except.error (PyErr.attributeError kAuthor) := by
  unfold Tx.signE
  rw [Tx.json_dumpsE_unsigned h]

theorem Tx.signE_ok {c : Crypto} {sk : c.SK} {t : Tx} {j : String}
    (h : t.json_dumpsE = Except.ok j) :
    t.signE c sk = Except.ok { t with signature := some (hexEncode (c.sign sk j))
                                      vk := some (c.toPemHex sk)
                                      author := some (c.sha256hex (c.toPemHex sk)) } := by
  unfold Tx.signE
  rw [h]

/-- Invariant preservation through one method call: from an unsigned or a
fully-signed state, every operation leaves the object unsigned or fully
signed — never partially signed. -/
theorem Tx.step_inv (c : Crypto) (t : Tx) (op : TxOp c.SK)
    (h : t.unsigned ∨ t.fullySigned c) :
    (t.step c op).unsigned ∨ (t.step c op).fullySigned c := by
  cases op with
  | doVerify => exact h
  | doHash => exact h
  | doSign sk =>
    have hstep : t.step c (TxOp.doSign sk) =
        (match t.signE c sk with
         | Except.ok t2 => t2
         | Except.error _ => t) := rfl
    rcases h with h | h
    · left
      rw [hstep, Tx.signE_unsigned h.1]
      exact h
    · right
      obtain ⟨a, v, s, ha, hv, hs, hav⟩ := h
      obtain ⟨j, hj⟩ := dumpsDict_jstr4_ok kContainerId kEvent kAuthor kVk
        t.container_id t.event a v
      have hd : t.json_dumpsE = Except.ok j := by rw [Tx.json_dumpsE_ok ha hv]; exact hj
      rw [hstep, Tx.signE_ok hd]
      exact ⟨_, _, _, rfl, rfl, rfl, rfl⟩

theorem Tx.run_inv (c : Crypto) (ops : List (TxOp c.SK)) (t : Tx)
    (h : t.unsigned ∨ t.fullySigned c) :
    (t.run c ops).unsigned ∨ (t.run c ops).fullySigned c := by
  induction ops generalizing t with
  | nil => exact h
  | cons op ops ih => exact ih (t.step c op) (Tx.step_inv c t op h)

/-! ### Concrete sample objects, used to evaluate the model -/

/-- Crypto model whose signature check always fails. -/
def rejectCrypto : Crypto where
  SK := Unit
  VK := Unit
  sign := fun _ _ => []
  toPemHex := fun _ => ""
  fromPem := fun _ => some ()
  vkVerify := fun _ _ _ => false
  sha256hex := fun s => s

/-- Crypto model whose key decoding always fails. -/
def noPemCrypto : Crypto where
  SK := Unit
  VK := Unit
  sign := fun _ _ => []
  toPemHex := fun _ => ""
  fromPem := fun _ => none
  vkVerify := fun _ _ _ => true
  sha256hex := fun s => s

/-- A transaction state carrying all three signing attributes. -/
def txSigned : Tx :=
  { container_id := "C1"
    event := "loaded"
    timestamp := "2023-11-24 10:00:00.000000"
    ship := none
    harbor := none
    info := [("size", "20ft")]
    author := some "a0"
    vk := some "ff"
    signature := some "deadbeef" }

/-- A freshly constructed (unsigned) transaction. -/
def txFresh : Tx :=
  Tx.init ("C1") ("loaded") [("size", "20ft")] none none none
    ("2023-11-24 10:00:00.000000")

/-- The serialization of the genesis block's five fixed fields, exactly as
`json.dumps(..., sort_keys=True)` lays it out. -/
def genesisJson : String :=
  "\x7b\"index\": 0, \"previous_hash\": \"0000000000000000000000000000000000000000000000000000000000000000\", \"proof\": 0, \"timestamp\": \"2023-11-24 00:00:00.000000\", \"transactions\": []\x7d"

/-! ### Claims C1, C2, C4, C5, C7, C9 -/

/-- C1: the claim says a signed transaction verifies and any post-signing
mutation falsifies `verify()`.  The code instead can never sign anything:
`sign` serializes `self.data`, whose dictionary literal reads `self.author`,
an attribute `__init__` never creates, so `sign` raises
`AttributeError("author")` on every freshly constructed transaction (before
assigning anything), and `verify()` on such a transaction returns `false`. -/
theorem claim_C1 (c : Crypto) (sk : c.SK) (cid ev : String)
    (info : List (String × String)) (harbor ship date : Option String) (now : String) :
    Tx.signE c sk (Tx.init cid ev info harbor ship date now) =
      Except.error (PyErr.attributeError kAuthor) ∧
    Tx.verify c (Tx.init cid ev info harbor ship date now) = false :=
  ⟨rfl, rfl⟩

/-- C2: the claim says `sign` signs the canonical encoding of
`{container_id, event, info}` and never includes `author`/`vk`/`signature`.
In the code the signed message is `json.dumps(self.data, sort_keys=True)`
where `data` is `{container_id, event, author, vk}`: it omits `info` and
includes `author` and `vk` — which is also why signing a fresh transaction
crashes.  When the two attributes do exist, `sign` signs exactly that
four-field dictionary's canonical dump. -/
theorem claim_C2 (c : Crypto) (sk : c.SK) (t : Tx) (a v : String)
    (ha : t.author = some a) (hv : t.vk = some v) :
    t.dataE.map (fun l => l.map Prod.fst) =
      Except.ok [kContainerId, kEvent, kAuthor, kVk] ∧
    (∀ l, t.dataE = Except.ok l → ¬ ("info" ∈ l.map Prod.fst) ∧
      ¬ ("timestamp" ∈ l.map Prod.fst) ∧ kAuthor ∈ l.map Prod.fst ∧
      kVk ∈ l.map Prod.fst) ∧
    (∀ j, t.json_dumpsE = Except.ok j →
      t.signE c sk = Except.ok { t with signature := some (hexEncode (c.sign sk j))
                                        vk := some (c.toPemHex sk)
                                        author := some (c.sha256hex (c.toPemHex sk)) }) ∧
    t.json_dumpsE = dumpsDict [(kContainerId, JVal.jstr t.container_id),
      (kEvent, JVal.jstr t.event), (kAuthor, JVal.jstr a), (kVk, JVal.jstr v)] := by
  refine ⟨?_, ?_, ?_, Tx.json_dumpsE_ok ha hv⟩
  · unfold Tx.dataE
    rw [ha, hv]
    rfl
  · intro l hl
    unfold Tx.dataE at hl
    rw [ha, hv] at hl
    cases hl
    refine ⟨?_, ?_, ?_, ?_⟩ <;> simp only [List.map, List.mem_cons,
      List.not_mem_nil, List.mem_singleton] <;> decide
  · intro j hj
    exact Tx.signE_ok hj

/-- Witness for C2 at a concrete signed-shape state and concrete crypto. -/
theorem claim_C2_witness :
    txSigned.dataE.map (fun l => l.map Prod.fst) =
      Except.ok [kContainerId, kEvent, kAuthor, kVk] ∧
    txSigned.signE trivialCrypto () =
      Except.ok { txSigned with signature := some ""
                                vk := some ""
                                author := some "" } := by
  have h := claim_C2 trivialCrypto () txSigned "a0" "ff" rfl rfl
  refine ⟨h.1, ?_⟩
  have h3 := h.2.2.1 (txSigned.json_dumpsE.toOption.getD "") (by decide)
  rw [h3]
  decide

/-- C4: after any sequence of construction, sign, verify, hash operations the
transaction is either unsigned (none of the three attributes exists) or fully
signed (all three exist and `author = sha256(vk)`); no partial state arises.
Confirmed — note `sign` can in fact never complete from the initial state, so
every reachable state is unsigned. -/
theorem claim_C4 (c : Crypto) (cid ev : String) (info : List (String × String))
    (harbor ship date : Option String) (now : String) (ops : List (TxOp c.SK)) :
    Tx.unsigned (Tx.run c (Tx.init cid ev info harbor ship date now) ops) ∨
    Tx.fullySigned c (Tx.run c (Tx.init cid ev info harbor ship date now) ops) :=
  Tx.run_inv c ops _ (Or.inl ⟨rfl, rfl, rfl⟩)

/-- C5: the claim says `B.next(txs).previous_hash == B.hash()`.  The source
line is `new_block.previous_hash = self.hash` — without call parentheses — so
the attribute holds the bound method object, never a hex string (and the
module cannot even run: `Block.hash` ends in the stray token `x`, a
`SyntaxError`).  The other three stamped fields match the claim. -/
theorem claim_C5 (b : Block) (txs : List Tx) (now : String) :
    (b.next txs now).previous_hash = BVal.method ∧
    (∀ s : String, (b.next txs now).previous_hash ≠ BVal.hstr s) ∧
    (b.next txs now).index = b.index + 1 ∧
    (b.next txs now).transactions = txs ∧
    (b.next txs now).proof = 0 :=
  ⟨rfl, fun _ h => BVal.noConfusion h, rfl, rfl, rfl⟩

/-- C7: the claim says hashing an unsigned transaction fails with
`IncompleteTransaction`.  In the code `hash` first evaluates
`self.signature`, an attribute an unsigned transaction does not have, so it
raises `AttributeError("signature")` instead; and on a transaction carrying
all three attributes it still raises `AttributeError("message")` (the
`data_to_hash` line reads `self.message`, which no transaction has) rather
than returning a hex string. -/
theorem claim_C7 (c : Crypto) (cid ev : String) (info : List (String × String))
    (harbor ship date : Option String) (now : String) :
    Tx.hashE c (Tx.init cid ev info harbor ship date now) =
      Except.error (PyErr.attributeError kSignature) ∧
    (∀ m, PyErr.attributeError kSignature ≠ PyErr.incompleteTransaction m) ∧
    (∀ (t : Tx) (a v s : String), t.author = some a → t.vk = some v →
      t.signature = some s →
      Tx.hashE c t = Except.error (PyErr.attributeError kMessage)) := by
  refine ⟨rfl, fun m h => PyErr.noConfusion h, ?_⟩
  intro t a v s ha hv hs
  obtain ⟨j, hj⟩ := dumpsDict_jstr4_ok kContainerId kEvent kAuthor kVk
    t.container_id t.event a v
  have hd : t.json_dumpsE = Except.ok j := by rw [Tx.json_dumpsE_ok ha hv]; exact hj
  simp only [Tx.hashE, hs, hv, hd]

/-- Witness for C7: the unsigned case at a concrete transaction, and the
signed-shape case at `txSigned`. -/
theorem claim_C7_witness :
    Tx.hashE trivialCrypto txFresh = Except.error (PyErr.attributeError kSignature) ∧
    Tx.hashE trivialCrypto txSigned = Except.error (PyErr.attributeError kMessage) :=
  ⟨(claim_C7 trivialCrypto ("C1") ("loaded") [("size", "20ft")] none none none
      ("2023-11-24 10:00:00.000000")).1,
   (claim_C7 trivialCrypto ("x") ("y") [] none none none ("z")).2.2 txSigned
      "a0" "ff" "deadbeef" rfl rfl rfl⟩

/-- C9: the claim says independently constructed genesis blocks hash alike.
`Block()` consults no ambient state (the genesis timestamp is the fixed string
`"2023-11-24 00:00:00.000000"`), so its five fields — and hence the canonical
serialization fed to SHA-256 — are the same constants every time.  (The claim
is nonetheless recorded against the code as a defect: the source's `hash`
line ends in a stray `x`, a `SyntaxError`, so the real module cannot run at
all; this theorem is about `Block.hashE`, the line with the stray token
removed.) -/
theorem claim_C9 (c : Crypto) (now₁ now₂ : String) :
    Block.hashE c (Block.init now₁) = Block.hashE c (Block.init now₂) ∧
    Block.hashE c (Block.init now₁) = Except.ok (c.sha256hex genesisJson) ∧
    (Block.init now₁).index = 0 ∧
    (Block.init now₁).previous_hash =
      BVal.hstr (String.mk (List.replicate 64 (Char.ofNat 48))) ∧
    (Block.init now₁).timestamp = genesisTimestamp ∧
    (Block.init now₁).transactions = [] ∧
    (Block.init now₁).proof = 0 :=
  ⟨rfl, rfl, rfl, rfl, rfl, rfl, rfl⟩

/-! ### Claim C6: `verify` never raises and fails closed -/

/-- C6: every failure path of `Transaction.verify` — missing `signature`,
`public_key` or `author` attribute, undecodable key or signature hex,
un-deserializable PEM, or a signature that does not validate — is caught by
the `try/except Exception` block and becomes `False`; the method always
returns a boolean. -/
theorem claim_C6 (c : Crypto) (t : Tx) :
    (Tx.verify c t = true ∨ Tx.verify c t = false) ∧
    (t.vk = none → Tx.verify c t = false) ∧
    (t.signature = none → Tx.verify c t = false) ∧
    (t.author = none → Tx.verify c t = false) ∧
    (∀ vh, t.vk = some vh → hexDecode vh = none → Tx.verify c t = false) ∧
    (∀ vh bs, t.vk = some vh → hexDecode vh = some bs → c.fromPem bs = none →
      Tx.verify c t = false) ∧
    (∀ vh bs vkObj sh sb j, t.vk = some vh → hexDecode vh = some bs →
      c.fromPem bs = some vkObj → t.signature = some sh → hexDecode sh = some sb →
      t.json_dumpsE = Except.ok j → c.vkVerify vkObj sb j = false →
      Tx.verify c t = false) := by
  refine ⟨?_, ?_, ?_, ?_, ?_, ?_, ?_⟩
  · cases h : Tx.verify c t
    · right; rfl
    · left; rfl
  · intro h
    simp [Tx.verify, Tx.verifyTryE, h]
  · intro h
    rcases hvk : t.vk with _ | vh
    · simp [Tx.verify, Tx.verifyTryE, hvk]
    · rcases hhd : hexDecode vh with _ | bs
      · simp [Tx.verify, Tx.verifyTryE, hvk, hhd]
      · rcases hfp : c.fromPem bs with _ | vkObj
        · simp [Tx.verify, Tx.verifyTryE, hvk, hhd, hfp]
        · simp [Tx.verify, Tx.verifyTryE, hvk, hhd, hfp, h]
  · intro h
    rcases hvk : t.vk with _ | vh
    · simp [Tx.verify, Tx.verifyTryE, hvk]
    · rcases hhd : hexDecode vh with _ | bs
      · simp [Tx.verify, Tx.verifyTryE, hvk, hhd]
      · rcases hfp : c.fromPem bs with _ | vkObj
        · simp [Tx.verify, Tx.verifyTryE, hvk, hhd, hfp]
        · rcases hsg : t.signature with _ | sh
          · simp [Tx.verify, Tx.verifyTryE, hvk, hhd, hfp, hsg]
          · rcases hd2 : hexDecode sh with _ | sb
            · simp [Tx.verify, Tx.verifyTryE, hvk, hhd, hfp, hsg, hd2]
            · simp [Tx.verify, Tx.verifyTryE, hvk, hhd, hfp, hsg, hd2,
                Tx.json_dumpsE_unsigned h]
  · intro vh hvk hhd
    simp [Tx.verify, Tx.verifyTryE, hvk, hhd]
  · intro vh bs hvk hhd hfp
    simp [Tx.verify, Tx.verifyTryE, hvk, hhd, hfp]
  · intro vh bs vkObj sh sb j hvk hhd hfp hsg hd2 hdj hvv
    simp [Tx.verify, Tx.verifyTryE, hvk, hhd, hfp, hsg, hd2, hdj, hvv]

/-- Witness for C6: each failure mode evaluated at a concrete state. -/
theorem claim_C6_witness :
    Tx.verify trivialCrypto txFresh = false ∧
    Tx.verify trivialCrypto { txSigned with signature := none } = false ∧
    Tx.verify trivialCrypto { txSigned with author := none } = false ∧
    Tx.verify trivialCrypto { txSigned with vk := some "zz" } = false ∧
    Tx.verify noPemCrypto txSigned = false ∧
    Tx.verify rejectCrypto txSigned = false := by
  refine ⟨(claim_C6 trivialCrypto txFresh).2.1 rfl,
    (claim_C6 trivialCrypto _).2.2.1 rfl,
    (claim_C6 trivialCrypto _).2.2.2.1 rfl,
    (claim_C6 trivialCrypto _).2.2.2.2.1 "zz" rfl (by decide),
    (claim_C6 noPemCrypto _).2.2.2.2.2.1 "ff" [255] rfl (by decide) rfl,
    (claim_C6 rejectCrypto _).2.2.2.2.2.2 "ff" [255] () "deadbeef" [222, 173, 190, 239]
      (txSigned.json_dumpsE.toOption.getD "") rfl (by decide) rfl rfl (by decide) ?_ rfl⟩
  decide

/-! ### Claim C8: re-signing is not rejected -/

/-- C8 counterexample: the claim says re-signing an already-signed transaction
fails with `AlreadySigned`.  The code has no such guard (and no `AlreadySigned`
class at all): on a transaction whose three signing attributes exist, `sign`
succeeds and silently replaces all three. -/
theorem claim_C8_cex :
    txSigned.signE trivialCrypto () =
      Except.ok { txSigned with signature := some ""
                                vk := some ""
                                author := some "" } ∧
    (∀ e, txSigned.signE trivialCrypto () ≠ Except.error e) ∧
    (txSigned.signE trivialCrypto ()).toOption.map Tx.signature ≠
      some txSigned.signature ∧
    (txSigned.signE trivialCrypto ()).toOption.map Tx.vk ≠ some txSigned.vk ∧
    (txSigned.signE trivialCrypto ()).toOption.map Tx.author ≠ some txSigned.author := by
  refine ⟨by decide, ?_, by decide, by decide, by decide⟩
  intro e h
  rw [show txSigned.signE trivialCrypto () = Except.ok { txSigned with
    signature := some "", vk := some "", author := some "" } from by decide] at h
  exact Except.noConfusion h

/-- C8 amended: on any transaction whose `author`, `vk` and `signature`
attributes all exist, calling `sign` again does not fail — it recomputes and
silently overwrites all three attributes (the signed message being the dump of
the current data, with the old `author` and `vk` values inside). -/
theorem claim_C8 (c : Crypto) (sk : c.SK) (t : Tx) (a v s : String)
    (ha : t.author = some a) (hv : t.vk = some v) (hs : t.signature = some s) :
    ∃ j, t.json_dumpsE = Except.ok j ∧
      t.signE c sk = Except.ok { t with signature := some (hexEncode (c.sign sk j))
                                        vk := some (c.toPemHex sk)
                                        author := some (c.sha256hex (c.toPemHex sk)) } := by
  obtain ⟨j, hj⟩ := dumpsDict_jstr4_ok kContainerId kEvent kAuthor kVk
    t.container_id t.event a v
  have hd : t.json_dumpsE = Except.ok j := by rw [Tx.json_dumpsE_ok ha hv]; exact hj
  exact ⟨j, hd, Tx.signE_ok hd⟩

/-- Witness for the amended C8 at the concrete signed state. -/
theorem claim_C8_witness :
    ∃ j, txSigned.json_dumpsE = Except.ok j ∧
      txSigned.signE trivialCrypto () =
        Except.ok { txSigned with signature := some (hexEncode (trivialCrypto.sign () j))
                                  vk := some (trivialCrypto.toPemHex ())
                                  author := some (trivialCrypto.sha256hex
                                    (trivialCrypto.toPemHex ())) } :=
  claim_C8 trivialCrypto () txSigned "a0" "ff" "deadbeef" rfl rfl rfl

/-! ### Spec-modelled proof-of-work (`valid_proof` / `mine` are commented out) -/

/-- Count of leading `'0'` hex characters of a hash string. -/
def leadZeros (s : String) : Nat :=
  (s.data.takeWhile (fun ch => ch.toNat == 48)).length

/-- Modelled from the spec: `valid_proof` exists only as commented-out code in
`proj_block.py`, so this follows the spec's words — the hash's leading
hex-character count of `'0'` must be at least `difficulty`, and the genesis
block (index 0) is trivially valid regardless of difficulty.  A block whose
serialization raises (method-valued `previous_hash`, transaction objects in
the list) has no hash to check and is not valid. -/
def Block.validProof (c : Crypto) (b : Block) (difficulty : Nat) : Bool :=
  b.index == 0 ||
    (match b.hashE c with
     | Except.ok h => difficulty ≤ leadZeros h
     | Except.error _ => false)

/-- Modelled from the spec: `mine` exists only as commented-out code, so this
follows the spec's words — try `proof` values from the current one upward,
recomputing the hash after each increment, until `validProof`; `fuel` bounds
the otherwise unbounded search (`none` = not found within `fuel` attempts). -/
def Block.mineFuel (c : Crypto) (difficulty : Nat) : Nat → Block → Option Block
  | 0, _ => none
  | fuel + 1, b =>
    if b.validProof c difficulty then some b
    else Block.mineFuel c difficulty fuel { b with proof := b.proof + 1 }

theorem Block.validProof_genesis (c : Crypto) (now : String) (difficulty : Nat) :
    (Block.init now).validProof c difficulty = true := rfl

theorem Block.mineFuel_sound (c : Crypto) (difficulty : Nat) :
    ∀ (fuel : Nat) (b b2 : Block), Block.mineFuel c difficulty fuel b = some b2 →
      b2.validProof c difficulty = true ∧ b2.proof ≥ b.proof ∧
      b2 = { b with proof := b2.proof } := by
  intro fuel
  induction fuel with
  | zero => intro b b2 h; exact Option.noConfusion h
  | succ fuel ih =>
    intro b b2 h
    unfold Block.mineFuel at h
    by_cases hv : b.validProof c difficulty = true
    · rw [if_pos hv] at h
      cases h
      exact ⟨hv, Nat.le_refl _, rfl⟩
    · rw [if_neg hv] at h
      obtain ⟨h1, h2, h3⟩ := ih { b with proof := b.proof + 1 } b2 h
      refine ⟨h1, ?_, h3⟩
      calc b.proof ≤ b.proof + 1 := Nat.le_succ _
        _ ≤ b2.proof := h2

theorem Block.mineFuel_genesis (c : Crypto) (difficulty : Nat) (now : String) :
    Block.mineFuel c difficulty 1 (Block.init now) = some (Block.init now) := rfl

/-! ### Injectivity of the canonical encoding: character-level facts -/

theorem char_toNat_inj {a b : Char} (h : a.toNat = b.toNat) : a = b := by
  apply Char.eq_of_val_eq
  apply UInt32.eq_of_toBitVec_eq
  apply BitVec.eq_of_toNat_eq
  exact h

theorem charOfNat_toNat {n : Nat} (h : n.isValidChar) : (Char.ofNat n).toNat = n := by
  simp only [Char.ofNat, h, dite_true]
  rfl

theorem char_toNat_valid (c : Char) : c.toNat.isValidChar := by
  rcases c with ⟨⟨⟨v, hlt⟩⟩, hvalid⟩
  exact hvalid

theorem char_toNat_lt (c : Char) : c.toNat < 1114112 := by
  rcases char_toNat_valid c with h | h
  · exact Nat.lt_trans h (by norm_num)
  · exact h.2

theorem valid_of_lt_surr {n : Nat} (h : n < 55296) : n.isValidChar := Or.inl h

theorem readHexDigit_hexDigitChar : ∀ k, k < 16 →
    readHexDigit (hexDigitChar k) = some k := by decide

theorem hexDigitChar_toNat_lt : ∀ k, k < 16 → (hexDigitChar k).toNat < 103 := by decide

/-- Reading four hex digits and the tail. -/
def readHex4 : List Char → Option (Nat × List Char)
  | a :: b :: c :: d :: r =>
    match readHexDigit a, readHexDigit b, readHexDigit c, readHexDigit d with
    | some va, some vb, some vc, some vd =>
      some (va * 4096 + vb * 256 + vc * 16 + vd, r)
    | _, _, _, _ => none
  | _ => none

theorem readHex4_hex4 (n : Nat) (h : n < 65536) (r : List Char) :
    readHex4 (hex4 n ++ r) = some (n, r) := by
  have h1 := readHexDigit_hexDigitChar (n / 4096 % 16) (Nat.mod_lt _ (by norm_num))
  have h2 := readHexDigit_hexDigitChar (n / 256 % 16) (Nat.mod_lt _ (by norm_num))
  have h3 := readHexDigit_hexDigitChar (n / 16 % 16) (Nat.mod_lt _ (by norm_num))
  have h4 := readHexDigit_hexDigitChar (n % 16) (Nat.mod_lt _ (by norm_num))
  simp only [hex4, List.cons_append, List.nil_append, readHex4, h1, h2, h3, h4]
  have : n / 4096 % 16 * 4096 + n / 256 % 16 * 256 + n / 16 % 16 * 16 + n % 16 = n := by
    omega
  rw [this]

/-- Prepend a decoded character to a decoder result. -/
def consF (c : Char) : Option (List Char × List Char) → Option (List Char × List Char)
  | none => none
  | some (s, r) => some (c :: s, r)

/-- Decoding of a `\uXXXX` escape whose value `n` has been read: recombine a
surrogate pair or emit the scalar, then continue with `k`. -/
def decodeUni (k : List Char → Option (List Char × List Char)) (n : Nat)
    (r3 : List Char) : Option (List Char × List Char) :=
  if 55296 ≤ n ∧ n < 56320 then
    match r3 with
    | c2 :: u2 :: r4 =>
      if c2.toNat = 92 ∧ u2.toNat = 117 then
        match readHex4 r4 with
        | none => none
        | some (n2, r5) =>
          if 56320 ≤ n2 ∧ n2 < 57344 then
            consF (Char.ofNat (65536 + (n - 55296) * 1024 + (n2 - 56320))) (k r5)
          else none
      else none
    | _ => none
  else consF (Char.ofNat n) (k r3)

/-- Fuel-bounded decoder for an escaped string body: reads characters until an
unescaped closing quote, undoing `escapeChar` (including surrogate pairs).
Only used as a proof tool to invert `escapeL`. -/
def decodeStrAux : Nat → List Char → Option (List Char × List Char)
  | 0, _ => none
  | _ + 1, [] => none
  | fuel + 1, c :: r =>
    if c.toNat = 34 then some ([], r)
    else if c.toNat = 92 then
      match r with
      | [] => none
      | e :: r2 =>
        if e.toNat = 34 then consF (Char.ofNat 34) (decodeStrAux fuel r2)
        else if e.toNat = 92 then consF (Char.ofNat 92) (decodeStrAux fuel r2)
        else if e.toNat = 98 then consF (Char.ofNat 8) (decodeStrAux fuel r2)
        else if e.toNat = 116 then consF (Char.ofNat 9) (decodeStrAux fuel r2)
        else if e.toNat = 110 then consF (Char.ofNat 10) (decodeStrAux fuel r2)
        else if e.toNat = 102 then consF (Char.ofNat 12) (decodeStrAux fuel r2)
        else if e.toNat = 114 then consF (Char.ofNat 13) (decodeStrAux fuel r2)
        else if e.toNat = 117 then
          match readHex4 r2 with
          | none => none
          | some (n, r3) => decodeUni (decodeStrAux fuel) n r3
        else none
    else consF c (decodeStrAux fuel r)

theorem decodeStrAux_u_step (f : Nat) (tail : List Char) (n : Nat) (hn : n < 65536) :
    decodeStrAux (f + 1) (Char.ofNat 92 :: Char.ofNat 117 :: (hex4 n ++ tail)) =
      decodeUni (decodeStrAux f) n tail := by
  rw [show decodeStrAux (f + 1) (Char.ofNat 92 :: Char.ofNat 117 :: (hex4 n ++ tail)) =
    (match readHex4 (hex4 n ++ tail) with
     | none => none
     | some (p, r3) => decodeUni (decodeStrAux f) p r3) from rfl]
  rw [readHex4_hex4 n hn tail]

theorem decodeUni_scalar (k : List Char → Option (List Char × List Char)) (n : Nat)
    (r : List Char) (hnosurr : ¬ (55296 ≤ n ∧ n < 56320)) :
    decodeUni k n r = consF (Char.ofNat n) (k r) := by
  unfold decodeUni
  rw [if_neg hnosurr]

theorem decodeUni_pair (k : List Char → Option (List Char × List Char)) (n B : Nat)
    (rest : List Char) (hsurr : 55296 ≤ n ∧ n < 56320) (hB : B < 65536)
    (hBr : 56320 ≤ B ∧ B < 57344) :
    decodeUni k n (Char.ofNat 92 :: Char.ofNat 117 :: hex4 B ++ rest) =
      consF (Char.ofNat (65536 + (n - 55296) * 1024 + (B - 56320))) (k rest) := by
  unfold decodeUni
  rw [if_pos hsurr]
  show (if (Char.ofNat 92).toNat = 92 ∧ (Char.ofNat 117).toNat = 117 then
    match readHex4 (hex4 B ++ rest) with
    | none => none
    | some (n2, r5) =>
      if 56320 ≤ n2 ∧ n2 < 57344 then
        consF (Char.ofNat (65536 + (n - 55296) * 1024 + (n2 - 56320))) (k r5)
      else none
    else none) = _
  rw [if_pos (show (Char.ofNat 92).toNat = 92 ∧ (Char.ofNat 117).toNat = 117 by decide)]
  rw [readHex4_hex4 B hB]
  show (if 56320 ≤ B ∧ B < 57344 then
    consF (Char.ofNat (65536 + (n - 55296) * 1024 + (B - 56320))) (k rest)
    else none) = _
  rw [if_pos hBr]

theorem decodeStrAux_plain_step (f : Nat) (c : Char) (rest : List Char)
    (h34 : ¬ c.toNat = 34) (h92 : ¬ c.toNat = 92) :
    decodeStrAux (f + 1) (c :: rest) = consF c (decodeStrAux f rest) := by
  rw [show decodeStrAux (f + 1) (c :: rest) =
    (if c.toNat = 34 then some ([], rest)
     else if c.toNat = 92 then
       (match rest with
        | [] => none
        | e :: r2 =>
          if e.toNat = 34 then consF (Char.ofNat 34) (decodeStrAux f r2)
          else if e.toNat = 92 then consF (Char.ofNat 92) (decodeStrAux f r2)
          else if e.toNat = 98 then consF (Char.ofNat 8) (decodeStrAux f r2)
          else if e.toNat = 116 then consF (Char.ofNat 9) (decodeStrAux f r2)
          else if e.toNat = 110 then consF (Char.ofNat 10) (decodeStrAux f r2)
          else if e.toNat = 102 then consF (Char.ofNat 12) (decodeStrAux f r2)
          else if e.toNat = 114 then consF (Char.ofNat 13) (decodeStrAux f r2)
          else if e.toNat = 117 then
            (match readHex4 r2 with
             | none => none
             | some (n, r3) => decodeUni (decodeStrAux f) n r3)
          else none)
     else consF c (decodeStrAux f rest)) from rfl]
  rw [if_neg h34, if_neg h92]

theorem decode_escapeChar_ctrl (c : Char) (rest : List Char) (f : Nat)
    (h34 : ¬ c.toNat = 34) (h92 : ¬ c.toNat = 92) (h8 : ¬ c.toNat = 8)
    (h9 : ¬ c.toNat = 9) (h10 : ¬ c.toNat = 10) (h12 : ¬ c.toNat = 12)
    (h13 : ¬ c.toNat = 13) (h32 : c.toNat < 32) :
    decodeStrAux (f + 1) (escapeChar c ++ rest) = consF c (decodeStrAux f rest) := by
  have hval := char_toNat_valid c
  have hofc : Char.ofNat c.toNat = c := char_toNat_inj (charOfNat_toNat hval)
  have hesc : escapeChar c = Char.ofNat 92 :: Char.ofNat 117 :: hex4 c.toNat := by
    unfold escapeChar
    rw [if_neg h34, if_neg h92, if_neg h8, if_neg h9, if_neg h10, if_neg h12,
      if_neg h13, if_pos h32]
  rw [hesc]
  show decodeStrAux (f + 1) (Char.ofNat 92 :: Char.ofNat 117 :: (hex4 c.toNat ++ rest)) = _
  rw [decodeStrAux_u_step f rest c.toNat (by omega)]
  rw [decodeUni_scalar _ _ _ (by omega), hofc]

theorem decode_escapeChar_mid (c : Char) (rest : List Char) (f : Nat)
    (h127 : 126 < c.toNat) (h65536 : c.toNat < 65536) :
    decodeStrAux (f + 1) (escapeChar c ++ rest) = consF c (decodeStrAux f rest) := by
  have hval := char_toNat_valid c
  have hofc : Char.ofNat c.toNat = c := char_toNat_inj (charOfNat_toNat hval)
  have hnosurr : ¬ (55296 ≤ c.toNat ∧ c.toNat < 56320) := by
    rcases hval with h | h
    · omega
    · omega
  have n34 : ¬ c.toNat = 34 := by omega
  have n92 : ¬ c.toNat = 92 := by omega
  have n8 : ¬ c.toNat = 8 := by omega
  have n9 : ¬ c.toNat = 9 := by omega
  have n10 : ¬ c.toNat = 10 := by omega
  have n12 : ¬ c.toNat = 12 := by omega
  have n13 : ¬ c.toNat = 13 := by omega
  have n32 : ¬ c.toNat < 32 := by omega
  have n126 : ¬ c.toNat ≤ 126 := by omega
  have hesc : escapeChar c = Char.ofNat 92 :: Char.ofNat 117 :: hex4 c.toNat := by
    unfold escapeChar
    rw [if_neg n34, if_neg n92, if_neg n8, if_neg n9, if_neg n10, if_neg n12,
      if_neg n13, if_neg n32, if_neg n126, if_pos h65536]
  rw [hesc]
  show decodeStrAux (f + 1) (Char.ofNat 92 :: Char.ofNat 117 :: (hex4 c.toNat ++ rest)) = _
  rw [decodeStrAux_u_step f rest c.toNat h65536]
  rw [decodeUni_scalar _ _ _ hnosurr, hofc]

theorem decode_escapeChar_high (c : Char) (rest : List Char) (f : Nat)
    (hbig : 65536 ≤ c.toNat) :
    decodeStrAux (f + 1) (escapeChar c ++ rest) = consF c (decodeStrAux f rest) := by
  have hval := char_toNat_valid c
  have hlt := char_toNat_lt c
  have hofc : Char.ofNat c.toNat = c := char_toNat_inj (charOfNat_toNat hval)
  have hesc : escapeChar c =
      (Char.ofNat 92 :: Char.ofNat 117 :: hex4 (55296 + (c.toNat - 65536) / 1024)) ++
        Char.ofNat 92 :: Char.ofNat 117 :: hex4 (56320 + (c.toNat - 65536) % 1024) := by
    unfold escapeChar
    have m34 : ¬ c.toNat = 34 := by omega
    have m92 : ¬ c.toNat = 92 := by omega
    have m8 : ¬ c.toNat = 8 := by omega
    have m9 : ¬ c.toNat = 9 := by omega
    have m10 : ¬ c.toNat = 10 := by omega
    have m12 : ¬ c.toNat = 12 := by omega
    have m13 : ¬ c.toNat = 13 := by omega
    have m32 : ¬ c.toNat < 32 := by omega
    have m126 : ¬ c.toNat ≤ 126 := by omega
    have m65536 : ¬ c.toNat < 65536 := by omega
    rw [if_neg m34, if_neg m92, if_neg m8, if_neg m9, if_neg m10, if_neg m12,
      if_neg m13, if_neg m32, if_neg m126, if_neg m65536]
  rw [hesc, List.append_assoc]
  have hdivlt : (c.toNat - 65536) / 1024 < 1024 := by omega
  have hmodlt : (c.toNat - 65536) % 1024 < 1024 := Nat.mod_lt _ (by norm_num)
  generalize hA : 55296 + (c.toNat - 65536) / 1024 = A
  generalize hB : 56320 + (c.toNat - 65536) % 1024 = B
  show decodeStrAux (f + 1) (Char.ofNat 92 :: Char.ofNat 117 ::
    (hex4 A ++ (Char.ofNat 92 :: Char.ofNat 117 :: hex4 B ++ rest))) = _
  rw [decodeStrAux_u_step f _ A (by omega)]
  rw [decodeUni_pair _ A B rest (by omega) (by omega) (by omega)]
  have harith : 65536 + (A - 55296) * 1024 + (B - 56320) = c.toNat := by omega
  rw [harith, hofc]

theorem decode_escapeChar (c : Char) (rest : List Char) (f : Nat) :
    decodeStrAux (f + 1) (escapeChar c ++ rest) = consF c (decodeStrAux f rest) := by
  have hval := char_toNat_valid c
  have hofc : Char.ofNat c.toNat = c := char_toNat_inj (charOfNat_toNat hval)
  by_cases h34 : c.toNat = 34
  · rw [show c = Char.ofNat 34 from by rw [← h34, hofc]]
    rfl
  by_cases h92 : c.toNat = 92
  · rw [show c = Char.ofNat 92 from by rw [← h92, hofc]]
    rfl
  by_cases h8 : c.toNat = 8
  · rw [show c = Char.ofNat 8 from by rw [← h8, hofc]]
    rfl
  by_cases h9 : c.toNat = 9
  · rw [show c = Char.ofNat 9 from by rw [← h9, hofc]]
    rfl
  by_cases h10 : c.toNat = 10
  · rw [show c = Char.ofNat 10 from by rw [← h10, hofc]]
    rfl
  by_cases h12 : c.toNat = 12
  · rw [show c = Char.ofNat 12 from by rw [← h12, hofc]]
    rfl
  by_cases h13 : c.toNat = 13
  · rw [show c = Char.ofNat 13 from by rw [← h13, hofc]]
    rfl
  by_cases h32 : c.toNat < 32
  · exact decode_escapeChar_ctrl c rest f h34 h92 h8 h9 h10 h12 h13 h32
  by_cases h126 : c.toNat ≤ 126
  · have hesc : escapeChar c = [c] := by
      unfold escapeChar
      rw [if_neg h34, if_neg h92, if_neg h8, if_neg h9, if_neg h10, if_neg h12,
        if_neg h13, if_neg (by omega), if_pos h126]
    rw [hesc]
    show decodeStrAux (f + 1) (c :: rest) = _
    exact decodeStrAux_plain_step f c rest h34 h92
  by_cases h65536 : c.toNat < 65536
  · exact decode_escapeChar_mid c rest f (by omega) h65536
  · exact decode_escapeChar_high c rest f (by omega)

theorem decode_escapeL : ∀ (s : List Char) (r : List Char) (f : Nat), s.length < f →
    decodeStrAux f (escapeL s ++ Char.ofNat 34 :: r) = some (s, r) := by
  intro s
  induction s with
  | nil =>
    intro r f hf
    cases f with
    | zero => exact absurd hf (by omega)
    | succ f => rfl
  | cons c cs ih =>
    intro r f hf
    cases f with
    | zero => exact absurd hf (by omega)
    | succ f =>
      have : escapeL (c :: cs) ++ Char.ofNat 34 :: r =
          escapeChar c ++ (escapeL cs ++ Char.ofNat 34 :: r) := by
        rw [show escapeL (c :: cs) = escapeChar c ++ escapeL cs from rfl,
          List.append_assoc]
      rw [this, decode_escapeChar c _ f,
        ih r f (by simpa using Nat.lt_of_succ_lt_succ hf)]
      rfl

theorem escapeL_close_inj {s₁ s₂ r₁ r₂ : List Char}
    (h : escapeL s₁ ++ Char.ofNat 34 :: r₁ = escapeL s₂ ++ Char.ofNat 34 :: r₂) :
    s₁ = s₂ ∧ r₁ = r₂ := by
  have h₁ := decode_escapeL s₁ r₁ (s₁.length + s₂.length + 1) (by omega)
  have h₂ := decode_escapeL s₂ r₂ (s₁.length + s₂.length + 1) (by omega)
  rw [h, h₂] at h₁
  have h3 := Option.some.inj h₁
  exact ⟨((Prod.mk.injEq _ _ _ _ ▸ h3).1).symm, ((Prod.mk.injEq _ _ _ _ ▸ h3).2).symm⟩

theorem jstrL_append_inj {s₁ s₂ r₁ r₂ : List Char}
    (h : jstrL s₁ ++ r₁ = jstrL s₂ ++ r₂) : s₁ = s₂ ∧ r₁ = r₂ := by
  unfold jstrL at h
  rw [List.cons_append, List.cons_append, List.append_assoc, List.append_assoc] at h
  have h2 := List.cons.inj h |>.2
  rw [List.singleton_append, List.singleton_append] at h2
  exact escapeL_close_inj h2

theorem digitChar_toNat {d : Nat} (h : d < 10) : (digitChar d).toNat = 48 + d := by
  unfold digitChar
  exact charOfNat_toNat (valid_of_lt_surr (by omega))

/-- Decimal digit test on characters. -/
def isDigCh (ch : Char) : Bool := decide (48 ≤ ch.toNat ∧ ch.toNat ≤ 57)

theorem natReprL_all_digits (n : Nat) : ∀ ch ∈ natReprL n, isDigCh ch = true := by
  intro ch hch
  unfold natReprL at hch
  rw [isDigCh, decide_eq_true_eq]
  by_cases h0 : n = 0
  · rw [if_pos h0] at hch
    rcases List.mem_singleton.mp hch with rfl
    rw [digitChar_toNat (by omega)]
    omega
  · rw [if_neg h0] at hch
    obtain ⟨d, hd, rfl⟩ := List.mem_map.mp (List.mem_reverse.mp hch)
    have hd10 : d < 10 := Nat.digits_lt_base (by norm_num) hd
    rw [digitChar_toNat hd10]
    omega

theorem span_digits : ∀ (l : List Char), (∀ x ∈ l, isDigCh x = true) →
    ∀ (y : Char), isDigCh y = false → ∀ (r : List Char),
    (l ++ y :: r).takeWhile isDigCh = l ∧ (l ++ y :: r).dropWhile isDigCh = y :: r := by
  intro l
  induction l with
  | nil =>
    intro _ y hy r
    constructor
    · simp [List.takeWhile, hy]
    · simp [List.dropWhile, hy]
  | cons a as ih =>
    intro hall y hy r
    have ha := hall a (by simp)
    have ⟨iht, ihd⟩ := ih (fun x hx => hall x (by simp [hx])) y hy r
    constructor
    · simp [List.takeWhile_cons, ha, iht]
    · simp [List.dropWhile_cons, ha, ihd]

theorem digitChar_lists_inj : ∀ (l₁ l₂ : List Nat), (∀ d ∈ l₁, d < 10) →
    (∀ d ∈ l₂, d < 10) → l₁.map digitChar = l₂.map digitChar → l₁ = l₂ := by
  intro l₁
  induction l₁ with
  | nil =>
    intro l₂ _ _ h
    cases l₂ with
    | nil => rfl
    | cons b bs => exact absurd h (by simp)
  | cons a as ih =>
    intro l₂ h₁ h₂ h
    cases l₂ with
    | nil => exact absurd h (by simp)
    | cons b bs =>
      simp only [List.map, List.cons.injEq] at h
      have ha : a < 10 := h₁ a (by simp)
      have hb : b < 10 := h₂ b (by simp)
      have hab : a = b := by
        have := congrArg Char.toNat h.1
        rw [digitChar_toNat ha, digitChar_toNat hb] at this
        omega
      rw [hab, ih bs (fun d hd => h₁ d (by simp [hd])) (fun d hd => h₂ d (by simp [hd])) h.2]

theorem natReprL_inj : ∀ {n₁ n₂ : Nat}, natReprL n₁ = natReprL n₂ → n₁ = n₂ := by
  have key : ∀ (m : Nat), m ≠ 0 → natReprL m = natReprL 0 → False := by
    intro m hm h
    unfold natReprL at h
    rw [if_neg hm, if_pos rfl] at h
    rcases hd : Nat.digits 10 m with _ | ⟨d, ds⟩
    · rw [hd] at h
      exact absurd h (by simp)
    · rw [hd] at h
      have hds : ds.map digitChar = [] ∧ digitChar d = digitChar 0 := by
        have hrev := congrArg List.reverse h
        simp only [List.reverse_reverse] at hrev
        simp only [List.map] at hrev
        rw [show ([digitChar 0] : List Char).reverse = [digitChar 0] from rfl] at hrev
        cases hmap : ds.map digitChar with
        | nil =>
          rw [hmap] at hrev
          exact ⟨rfl, by simpa using hrev⟩
        | cons x xs =>
          rw [hmap] at hrev
          exact absurd (congrArg List.length hrev) (by simp)
      have hd10 : d < 10 := Nat.digits_lt_base (by norm_num)
        (by rw [hd]; exact List.mem_cons_self d ds)
      have hds0 : ds = [] := List.map_eq_nil_iff.mp hds.1
      have hd0 : d = 0 := by
        have := congrArg Char.toNat hds.2
        rw [digitChar_toNat hd10, digitChar_toNat (by omega)] at this
        omega
      have : m = 0 := by
        have hof := Nat.ofDigits_digits 10 m
        rw [hd, hds0, hd0] at hof
        simpa using hof.symm
      exact hm this
  intro n₁ n₂ h
  by_cases h₁ : n₁ = 0
  · by_cases h₂ : n₂ = 0
    · rw [h₁, h₂]
    · subst h₁
      exact absurd h.symm (fun hc => absurd (key n₂ h₂ hc) id)
  · by_cases h₂ : n₂ = 0
    · subst h₂
      exact absurd h (fun hc => absurd (key n₁ h₁ hc) id)
    · unfold natReprL at h
      rw [if_neg h₁, if_neg h₂] at h
      have hmap := List.reverse_injective h
      have hdig := digitChar_lists_inj (Nat.digits 10 n₁) (Nat.digits 10 n₂)
        (fun d hd => Nat.digits_lt_base (by norm_num) hd)
        (fun d hd => Nat.digits_lt_base (by norm_num) hd) hmap
      have hof₁ := Nat.ofDigits_digits 10 n₁
      have hof₂ := Nat.ofDigits_digits 10 n₂
      rw [← hof₁, ← hof₂, hdig]

theorem natReprL_boundary {n₁ n₂ : Nat} {y₁ y₂ : Char} {r₁ r₂ : List Char}
    (hy₁ : isDigCh y₁ = false) (hy₂ : isDigCh y₂ = false)
    (h : natReprL n₁ ++ y₁ :: r₁ = natReprL n₂ ++ y₂ :: r₂) :
    n₁ = n₂ ∧ y₁ :: r₁ = y₂ :: r₂ := by
  have s₁ := span_digits (natReprL n₁) (natReprL_all_digits n₁) y₁ hy₁ r₁
  have s₂ := span_digits (natReprL n₂) (natReprL_all_digits n₂) y₂ hy₂ r₂
  have ht : natReprL n₁ = natReprL n₂ := by rw [← s₁.1, ← s₂.1, h]
  have hr : y₁ :: r₁ = y₂ :: r₂ := by rw [← s₁.2, ← s₂.2, h]
  exact ⟨natReprL_inj ht, hr⟩

/-! ### Order-independence of `dumpsDict` -/

theorem strKey_inj : ∀ {s t : String}, strKey s = strKey t → s = t := by
  intro s t h
  have hdata : s.data = t.data := List.map_injective_iff.mpr (@char_toNat_inj) h
  cases s
  cases t
  exact congrArg String.mk hdata

/-- Strict key order: used to show a sorted nodup-key field list is unique. -/
def keyLt (p q : String × JVal) : Prop := keyLe p q ∧ p.1 ≠ q.1

instance : IsAntisymm (String × JVal) keyLt :=
  ⟨fun p q h₁ h₂ =>
    absurd (strKey_inj (lexLeN_antisymm (strKey p.1) (strKey q.1) h₁.1 h₂.1)) h₁.2⟩

theorem sortPairs_sorted (l : List (String × JVal)) :
    List.Sorted keyLe (sortPairs l) :=
  List.sorted_insertionSort keyLe l

theorem sortPairs_perm (l : List (String × JVal)) :
    List.Perm (sortPairs l) l :=
  List.perm_insertionSort keyLe l

theorem sortPairs_sorted_strict {l : List (String × JVal)}
    (hnd : (l.map Prod.fst).Nodup) : List.Sorted keyLt (sortPairs l) := by
  have hnd' : ((sortPairs l).map Prod.fst).Nodup :=
    (((sortPairs_perm l).map Prod.fst).nodup_iff).mpr hnd
  have hne : List.Pairwise (fun p q : String × JVal => p.1 ≠ q.1) (sortPairs l) :=
    List.pairwise_map.mp hnd'
  exact ((sortPairs_sorted l).and hne).imp (fun h => ⟨h.1, h.2⟩)

theorem sortPairs_eq_of_perm {l l' : List (String × JVal)}
    (hnd : (l.map Prod.fst).Nodup) (hp : List.Perm l l') :
    sortPairs l = sortPairs l' := by
  have hnd' : (l'.map Prod.fst).Nodup := ((hp.map Prod.fst).nodup_iff).mp hnd
  have hperm : List.Perm (sortPairs l) (sortPairs l') :=
    ((sortPairs_perm l).trans hp).trans (sortPairs_perm l').symm
  exact List.eq_of_perm_of_sorted hperm (sortPairs_sorted_strict hnd)
    (sortPairs_sorted_strict hnd')

theorem dumpsDict_perm {l l' : List (String × JVal)}
    (hnd : (l.map Prod.fst).Nodup) (hp : List.Perm l l') :
    dumpsDict l = dumpsDict l' := by
  unfold dumpsDict dumpsDictL
  rw [sortPairs_eq_of_perm hnd hp]

/-! ### Canonical form of the rendered records and its injectivity -/

theorem string_data_inj {s t : String} (h : s.data = t.data) : s = t := by
  cases s
  cases t
  exact congrArg String.mk h

/-- Canonical serialization of a transaction's `data` dictionary, laid out as
the encoder produces it (keys sorted: author, container_id, event, vk). -/
def txJ (cid ev a v : String) : List Char :=
  Char.ofNat 123 ::
    (((jstrL kAuthor.data ++ (Char.ofNat 58 :: Char.ofNat 32 :: jstrL a.data)) ++
      (Char.ofNat 44 :: Char.ofNat 32 ::
        ((jstrL kContainerId.data ++ (Char.ofNat 58 :: Char.ofNat 32 :: jstrL cid.data)) ++
          (Char.ofNat 44 :: Char.ofNat 32 ::
            ((jstrL kEvent.data ++ (Char.ofNat 58 :: Char.ofNat 32 :: jstrL ev.data)) ++
              (Char.ofNat 44 :: Char.ofNat 32 ::
                (jstrL kVk.data ++ (Char.ofNat 58 :: Char.ofNat 32 :: jstrL v.data)))))))) ++
      [Char.ofNat 125])

theorem tx_dumps_norm (cid ev a v : String) :
    dumpsDict [(kContainerId, JVal.jstr cid), (kEvent, JVal.jstr ev),
      (kAuthor, JVal.jstr a), (kVk, JVal.jstr v)] =
    Except.ok (String.mk (txJ cid ev a v)) := rfl

/-- Canonical serialization of a block's five-field dictionary with empty
transactions (keys sorted: index, previous_hash, proof, timestamp,
transactions). -/
def blockJ (i : Nat) (p : String) (pr : Nat) (ts : String) : List Char :=
  Char.ofNat 123 ::
    (((jstrL kIndex.data ++ (Char.ofNat 58 :: Char.ofNat 32 :: natReprL i)) ++
      (Char.ofNat 44 :: Char.ofNat 32 ::
        ((jstrL kPreviousHash.data ++ (Char.ofNat 58 :: Char.ofNat 32 :: jstrL p.data)) ++
          (Char.ofNat 44 :: Char.ofNat 32 ::
            ((jstrL kProof.data ++ (Char.ofNat 58 :: Char.ofNat 32 :: natReprL pr)) ++
              (Char.ofNat 44 :: Char.ofNat 32 ::
                ((jstrL kTimestamp.data ++
                    (Char.ofNat 58 :: Char.ofNat 32 :: jstrL ts.data)) ++
                  (Char.ofNat 44 :: Char.ofNat 32 ::
                    (jstrL kTransactions.data ++ (Char.ofNat 58 :: Char.ofNat 32 ::
                      [Char.ofNat 91, Char.ofNat 93])))))))))) ++
      [Char.ofNat 125])

theorem block_dumps_norm (i : Nat) (p : String) (pr : Nat) (ts : String) :
    Block.json_dumpsE (Block.mk i (BVal.hstr p) ts [] pr) =
      Except.ok (String.mk (blockJ i p pr ts)) := rfl

theorem txJ_inj {cid1 ev1 a1 v1 cid2 ev2 a2 v2 : String}
    (h : txJ cid1 ev1 a1 v1 = txJ cid2 ev2 a2 v2) :
    cid1 = cid2 ∧ ev1 = ev2 ∧ a1 = a2 ∧ v1 = v2 := by
  unfold txJ at h
  simp only [List.append_assoc, List.cons_append] at h
  have h1 := (List.cons.inj h).2
  have h2 := List.append_cancel_left h1
  have h3 := (List.cons.inj (List.cons.inj h2).2).2
  obtain ⟨ha, h4⟩ := jstrL_append_inj h3
  have h5 := (List.cons.inj (List.cons.inj h4).2).2
  have h6 := List.append_cancel_left h5
  have h7 := (List.cons.inj (List.cons.inj h6).2).2
  obtain ⟨hcid, h8⟩ := jstrL_append_inj h7
  have h9 := (List.cons.inj (List.cons.inj h8).2).2
  have h10 := List.append_cancel_left h9
  have h11 := (List.cons.inj (List.cons.inj h10).2).2
  obtain ⟨hev, h12⟩ := jstrL_append_inj h11
  have h13 := (List.cons.inj (List.cons.inj h12).2).2
  have h14 := List.append_cancel_left h13
  have h15 := (List.cons.inj (List.cons.inj h14).2).2
  obtain ⟨hv, _⟩ := jstrL_append_inj h15
  exact ⟨string_data_inj hcid, string_data_inj hev, string_data_inj ha, string_data_inj hv⟩

theorem blockJ_inj {i1 pr1 i2 pr2 : Nat} {p1 ts1 p2 ts2 : String}
    (h : blockJ i1 p1 pr1 ts1 = blockJ i2 p2 pr2 ts2) :
    i1 = i2 ∧ p1 = p2 ∧ pr1 = pr2 ∧ ts1 = ts2 := by
  unfold blockJ at h
  simp only [List.append_assoc, List.cons_append] at h
  have h1 := (List.cons.inj h).2
  have h2 := List.append_cancel_left h1
  have h3 := (List.cons.inj (List.cons.inj h2).2).2
  obtain ⟨hi, h4⟩ := natReprL_boundary (by rfl) (by rfl) h3
  have h5 := (List.cons.inj (List.cons.inj h4).2).2
  have h6 := List.append_cancel_left h5
  have h7 := (List.cons.inj (List.cons.inj h6).2).2
  obtain ⟨hp, h8⟩ := jstrL_append_inj h7
  have h9 := (List.cons.inj (List.cons.inj h8).2).2
  have h10 := List.append_cancel_left h9
  have h11 := (List.cons.inj (List.cons.inj h10).2).2
  obtain ⟨hpr, h12⟩ := natReprL_boundary (by rfl) (by rfl) h11
  have h13 := (List.cons.inj (List.cons.inj h12).2).2
  have h14 := List.append_cancel_left h13
  have h15 := (List.cons.inj (List.cons.inj h14).2).2
  obtain ⟨hts, _⟩ := jstrL_append_inj h15
  exact ⟨hi, string_data_inj hp, hpr, string_data_inj hts⟩

theorem tx_dataE_no_vk {t : Tx} {a : String} (ha : t.author = some a)
    (hv : t.vk = none) : t.dataE = Except.error (PyErr.attributeError kVk) := by
  unfold Tx.dataE
  rw [ha, hv]

theorem tx_dumps_ok_shape {t : Tx} {s : String}
    (h : t.json_dumpsE = Except.ok s) :
    ∃ a v, t.author = some a ∧ t.vk = some v ∧
      s = String.mk (txJ t.container_id t.event a v) := by
  rcases ha : t.author with _ | a
  · rw [Tx.json_dumpsE_unsigned ha] at h
    exact Except.noConfusion h
  · rcases hv : t.vk with _ | v
    · unfold Tx.json_dumpsE at h
      rw [tx_dataE_no_vk ha hv] at h
      exact Except.noConfusion h
    · rw [Tx.json_dumpsE_ok ha hv, tx_dumps_norm] at h
      exact ⟨a, v, rfl, rfl, (Except.ok.inj h).symm⟩

theorem block_method_err (i : Nat) (ts : String) (txs : List Tx) (pr : Nat) :
    Block.json_dumpsE (Block.mk i BVal.method ts txs pr) =
      Except.error (PyErr.typeError serMethodMsg) := rfl

theorem block_txs_err (i : Nat) (p ts : String) (t0 : Tx) (txs : List Tx) (pr : Nat) :
    Block.json_dumpsE (Block.mk i (BVal.hstr p) ts (t0 :: txs) pr) =
      Except.error (PyErr.typeError serTxMsg) := rfl

theorem block_dumps_ok_shape {b : Block} {s : String}
    (h : b.json_dumpsE = Except.ok s) :
    ∃ p, b.previous_hash = BVal.hstr p ∧ b.transactions = [] ∧
      s = String.mk (blockJ b.index p b.proof b.timestamp) := by
  obtain ⟨i, pv, ts, txs, pr⟩ := b
  cases pv with
  | method =>
    rw [block_method_err] at h
    exact Except.noConfusion h
  | hstr p =>
    cases txs with
    | cons t0 txs2 =>
      rw [block_txs_err] at h
      exact Except.noConfusion h
    | nil =>
      rw [block_dumps_norm] at h
      exact ⟨p, rfl, rfl, (Except.ok.inj h).symm⟩

/-- C3 counterexample: the claim says the encoding differs whenever any field
differs, including `timestamp`, `info` (auxiliary fields), `ship` or `harbor`.
But a transaction's `data` — the only thing `json_dumps` serializes — contains
none of those fields, so two transactions differing exactly there encode to
identical bytes. -/
theorem claim_C3_cex :
    Tx.json_dumpsE { txSigned with timestamp := "2099-01-01 00:00:00.000000"
                                   info := []
                                   ship := some "Evergreen"
                                   harbor := some "Rotterdam" } =
      Tx.json_dumpsE txSigned ∧
    ({ txSigned with timestamp := "2099-01-01 00:00:00.000000" } : Tx).timestamp ≠
      txSigned.timestamp ∧
    ({ txSigned with info := ([] : List (String × String)) } : Tx).info ≠ txSigned.info ∧
    ({ txSigned with ship := some "Evergreen" } : Tx).ship ≠ txSigned.ship ∧
    ({ txSigned with harbor := some "Rotterdam" } : Tx).harbor ≠ txSigned.harbor := by
  exact ⟨rfl, by decide, by decide, by decide, by decide⟩

/-- C3 amended: the canonical encoding is order-independent (any permutation
of a field list with distinct keys serializes to the same bytes), and it is
injective exactly on what it covers: for transactions the four fields of
`data` — `container_id`, `event`, `author`, `vk` — with `timestamp`, `info`,
`ship`, `harbor` not covered (changing them never changes the bytes); for
blocks all five fields, provided the block can be serialized at all (a
method-valued `previous_hash` or a nonempty transaction list of `Transaction`
objects raises `TypeError`, matching the source's `Block.next` output and
nonempty blocks). -/
theorem claim_C3 :
    (∀ (l l' : List (String × JVal)), (l.map Prod.fst).Nodup → List.Perm l l' →
      dumpsDict l = dumpsDict l') ∧
    (∀ (t : Tx) (ts2 : String) (sh2 hb2 : Option String)
        (inf2 : List (String × String)),
      Tx.json_dumpsE { t with timestamp := ts2
                              ship := sh2
                              harbor := hb2
                              info := inf2 } = Tx.json_dumpsE t) ∧
    (∀ (t t' : Tx) (s : String), t.json_dumpsE = Except.ok s →
      t'.json_dumpsE = Except.ok s →
      t.container_id = t'.container_id ∧ t.event = t'.event ∧
        t.author = t'.author ∧ t.vk = t'.vk) ∧
    (∀ (b b' : Block) (s : String), b.json_dumpsE = Except.ok s →
      b'.json_dumpsE = Except.ok s → b = b') ∧
    (∀ (i : Nat) (ts : String) (txs : List Tx) (pr : Nat),
      Block.json_dumpsE (Block.mk i BVal.method ts txs pr) =
        Except.error (PyErr.typeError serMethodMsg)) ∧
    (∀ (i : Nat) (p ts : String) (t0 : Tx) (txs : List Tx) (pr : Nat),
      Block.json_dumpsE (Block.mk i (BVal.hstr p) ts (t0 :: txs) pr) =
        Except.error (PyErr.typeError serTxMsg)) := by
  refine ⟨fun l l' hnd hp => dumpsDict_perm hnd hp, fun t ts2 sh2 hb2 inf2 => rfl,
    ?_, ?_, block_method_err, block_txs_err⟩
  · intro t t' s h h'
    obtain ⟨a, v, ha, hv, hs⟩ := tx_dumps_ok_shape h
    obtain ⟨a', v', ha', hv', hs'⟩ := tx_dumps_ok_shape h'
    rw [hs] at hs'
    have hj := txJ_inj (show txJ t.container_id t.event a v =
      txJ t'.container_id t'.event a' v' from congrArg String.data hs')
    rw [ha, hv, ha', hv']
    exact ⟨hj.1, hj.2.1, by rw [hj.2.2.1], by rw [hj.2.2.2]⟩
  · intro b b' s h h'
    obtain ⟨p, hp, htx, hs⟩ := block_dumps_ok_shape h
    obtain ⟨p', hp', htx', hs'⟩ := block_dumps_ok_shape h'
    rw [hs] at hs'
    have hj := blockJ_inj (show blockJ b.index p b.proof b.timestamp =
      blockJ b'.index p' b'.proof b'.timestamp from congrArg String.data hs')
    obtain ⟨bi, bpv, bts, btxs, bpr⟩ := b
    obtain ⟨bi', bpv', bts', btxs', bpr'⟩ := b'
    simp only at hp hp' htx htx' hj
    rw [hp, hp', htx, htx', hj.1, hj.2.1, hj.2.2.1, hj.2.2.2]

/-- Witness for the amended C3 at concrete inputs: a shuffled two-field
dictionary, a transaction changed only outside the covered fields, two
serializations forced equal, and the two block error modes. -/
theorem claim_C3_witness :
    dumpsDict [("b", JVal.jstr ("1")), ("a", JVal.jstr ("2"))] =
      dumpsDict [("a", JVal.jstr ("2")), ("b", JVal.jstr ("1"))] ∧
    Tx.json_dumpsE { txSigned with timestamp := "t9"
                                   ship := none
                                   harbor := none
                                   info := [] } = Tx.json_dumpsE txSigned ∧
    (txSigned.container_id = ({ txSigned with timestamp := "zz" } : Tx).container_id ∧
      txSigned.event = ({ txSigned with timestamp := "zz" } : Tx).event ∧
      txSigned.author = ({ txSigned with timestamp := "zz" } : Tx).author ∧
      txSigned.vk = ({ txSigned with timestamp := "zz" } : Tx).vk) ∧
    Block.init ("n1") = Block.mk 0
      (BVal.hstr (String.mk (List.replicate 64 (Char.ofNat 48))))
      genesisTimestamp [] 0 ∧
    Block.json_dumpsE (Block.mk 3 BVal.method ("t0") [] 1) =
      Except.error (PyErr.typeError serMethodMsg) ∧
    Block.json_dumpsE (Block.mk 3 (BVal.hstr ("p")) ("t0") [txSigned] 1) =
      Except.error (PyErr.typeError serTxMsg) := by
  refine ⟨claim_C3.1 [("b", JVal.jstr ("1")), ("a", JVal.jstr ("2"))]
      [("a", JVal.jstr ("2")), ("b", JVal.jstr ("1"))] (by decide) (by decide),
    claim_C3.2.1 txSigned ("t9") none none [],
    claim_C3.2.2.1 txSigned { txSigned with timestamp := "zz" }
      (String.mk (txJ ("C1") ("loaded") ("a0") ("ff"))) rfl rfl,
    claim_C3.2.2.2.1 (Block.init ("n1"))
      (Block.mk 0 (BVal.hstr (String.mk (List.replicate 64 (Char.ofNat 48))))
        genesisTimestamp [] 0) genesisJson rfl rfl,
    claim_C3.2.2.2.2.1 3 ("t0") [] 1,
    claim_C3.2.2.2.2.2 3 ("p") ("t0") txSigned [] 1⟩
